import Mathlib

/-!
Shallow embedding of the filter/action evaluation core of the
`ingwarsw/cloud-custodian` repository (GCP metrics/log filters, label
actions, action framework) together with theorems settling the frozen
claims about it.

Python dictionaries over string keys are modelled as association lists
(`Dict`), with the operations the embedded code uses: lookup (`d.get`),
membership, `dict.update`, item assignment (`d[k] = v`) and dict
comprehension filtering.  Python `None` is modelled by `Option.none`,
Python numbers by `Rat`/`Int`, raised exceptions by `Except`.
-/

namespace Custodian

/-- Python dict with string keys: an association list whose operations keep
keys unique and preserve Python's insertion-order semantics. -/
abbrev Dict (α : Type) := List (String × α)

/-- `d.get(k)`: first binding of `k`, if any. -/
def dlookup {α : Type} (d : Dict α) (k : String) : Option α :=
  (d.find? (fun p => p.1 == k)).map (·.2)

/-- `k in d`. -/
def hasKey {α : Type} (d : Dict α) (k : String) : Bool :=
  d.any (fun p => p.1 == k)

/-- `cur.update(new)`: existing keys are overwritten in place (keeping their
position), keys new to `cur` are appended in order. -/
def dupdate {α : Type} (cur new : Dict α) : Dict α :=
  cur.map (fun p => (p.1, (dlookup new p.1).getD p.2))
    ++ new.filter (fun p => !hasKey cur p.1)

/-- `d[k] = v`: overwrite in place if the key exists, else append. -/
def dinsert {α : Type} (d : Dict α) (k : String) (v : α) : Dict α :=
  if hasKey d k then d.map (fun p => if p.1 == k then (k, v) else p)
  else d ++ [(k, v)]

theorem dlookup_nil {α : Type} (k : String) : dlookup ([] : Dict α) k = none := rfl

theorem dlookup_cons_self {α : Type} (p : String × α) (d : Dict α) (h : p.1 = k) :
    dlookup (p :: d) k = some p.2 := by
  simp [dlookup, List.find?_cons, h]

theorem dlookup_cons_ne {α : Type} (p : String × α) (d : Dict α) (h : p.1 ≠ k) :
    dlookup (p :: d) k = dlookup d k := by
  simp [dlookup, List.find?_cons, beq_false_of_ne h]

theorem dlookup_append {α : Type} (a b : Dict α) (k : String) :
    dlookup (a ++ b) k = (dlookup a k).orElse (fun _ => dlookup b k) := by
  induction a with
  | nil => simp [dlookup_nil, Option.orElse]
  | cons p rest ih =>
    by_cases h : p.1 = k
    · rw [List.cons_append, dlookup_cons_self p _ h, dlookup_cons_self p _ h]
      rfl
    · rw [List.cons_append, dlookup_cons_ne p _ h, dlookup_cons_ne p _ h, ih]

theorem hasKey_iff_lookup {α : Type} (d : Dict α) (k : String) :
    hasKey d k = true ↔ (dlookup d k).isSome := by
  induction d with
  | nil => simp [hasKey, dlookup_nil]
  | cons p rest ih =>
    by_cases h : p.1 = k
    · simp [hasKey, dlookup_cons_self p _ h, h]
    · rw [dlookup_cons_ne p _ h]
      simp only [hasKey, List.any_cons, beq_false_of_ne h, Bool.false_or]
      exact ih

theorem dlookup_map_val {α : Type} (d : Dict α) (g : String × α → α) (k : String) :
    dlookup (d.map (fun p => (p.1, g p))) k
      = ((dlookup d k).map (fun _ => ())).bind
          (fun _ => (d.find? (fun p => p.1 == k)).map g) := by
  induction d with
  | nil => simp [dlookup_nil]
  | cons p rest ih =>
    by_cases h : p.1 = k
    · rw [List.map_cons, dlookup_cons_self (p := (p.1, g p)) _ h,
        dlookup_cons_self p _ h]
      simp [List.find?_cons, h]
    · rw [List.map_cons, dlookup_cons_ne (p := (p.1, g p)) _ h, dlookup_cons_ne p _ h, ih]
      simp [List.find?_cons, beq_false_of_ne h]

theorem dlookup_filter_out {α : Type} (d : Dict α) (bad : String → Bool) (k : String) :
    dlookup (d.filter (fun p => !bad p.1)) k
      = if bad k then none else dlookup d k := by
  induction d with
  | nil => simp [dlookup_nil]
  | cons p rest ih =>
    by_cases h : p.1 = k
    · subst h
      by_cases hbad : bad p.1
      · rw [List.filter_cons_of_neg (by simp [hbad]), ih, if_pos hbad, if_pos hbad]
      · rw [List.filter_cons_of_pos (by simp [hbad]),
          dlookup_cons_self p _ rfl, dlookup_cons_self p _ rfl]
        simp [hbad]
    · by_cases hbad : bad p.1
      · rw [List.filter_cons_of_neg (by simp [hbad]), ih, dlookup_cons_ne p _ h]
      · rw [List.filter_cons_of_pos (by simp [hbad]),
          dlookup_cons_ne p _ h, dlookup_cons_ne p _ h, ih]

theorem dlookup_dupdate {α : Type} (cur new : Dict α) (k : String) :
    dlookup (dupdate cur new) k
      = ((dlookup new k).orElse (fun _ => dlookup cur k)) := by
  unfold dupdate
  rw [dlookup_append, dlookup_map_val, dlookup_filter_out]
  rcases hfind : cur.find? (fun p => p.1 == k) with _ | p
  · have hcur : dlookup cur k = none := by simp [dlookup, hfind]
    have hnk : hasKey cur k = false := by
      rcases h : hasKey cur k with _ | _
      · rfl
      · exact absurd ((hasKey_iff_lookup cur k).mp h) (by simp [hcur])
    cases hnew : dlookup new k <;> simp [hcur, hnk, hnew, Option.orElse]
  · have hpk := List.find?_some hfind
    have hk : p.1 = k := by simpa using hpk
    have hcur : dlookup cur k = some p.2 := by simp [dlookup, hfind]
    have hhk : hasKey cur k = true :=
      (hasKey_iff_lookup cur k).mpr (by simp [hcur])
    cases hnew : dlookup new k <;>
      simp [hcur, hfind, hhk, hk, hnew, Option.orElse]

theorem dlookup_dinsert_self {α : Type} (d : Dict α) (k : String) (v : α) :
    dlookup (dinsert d k v) k = some v := by
  unfold dinsert
  by_cases h : hasKey d k
  · simp only [h, if_true]
    rw [hasKey_iff_lookup] at h
    induction d with
    | nil => simp [dlookup_nil] at h
    | cons p rest ih =>
      by_cases hp : p.1 = k
      · have : (p.1 == k) = true := beq_iff_eq.mpr hp
        rw [List.map_cons, this]
        exact dlookup_cons_self _ _ rfl
      · have hb : (p.1 == k) = false := beq_false_of_ne hp
        rw [dlookup_cons_ne p _ hp] at h
        rw [List.map_cons, hb]
        simp only [Bool.false_eq_true, if_false]
        rw [dlookup_cons_ne p _ hp]
        exact ih h
  · have hF : hasKey d k = false := by simpa using h
    rw [hF]
    simp only [Bool.false_eq_true, if_false]
    rw [dlookup_append]
    have hmiss : dlookup d k = none := by
      rcases hl : dlookup d k with _ | w
      · rfl
      · exact absurd ((hasKey_iff_lookup d k).mpr (by simp [hl])) (by simp [h])
    rw [hmiss]
    simp [Option.orElse, dlookup_cons_self (p := (k, v)) _ rfl]

/-!
### `BaseLabelAction._merge_labels`
(src/tools/c7n_gcp/c7n_gcp/actions/labels.py, lines 38-44)

```python
def _merge_labels(self, current_labels, new_labels, remove_labels):
    result = current_labels
    if new_labels:
        result.update(new_labels)
    if remove_labels:
        result = {k: v for k, v in current_labels.items() if k not in remove_labels}
    return result
```

`result` aliases the `current_labels` object, so `result.update(new_labels)`
mutates `current_labels` in place and the comprehension in the
`remove_labels` branch iterates over the already-updated dict.  The model
passes that state explicitly.  `new_labels` and `remove_labels` may be
Python `None` (modelled by `none`); `if new_labels:` / `if remove_labels:`
are Python truthiness tests, false for `None` and for an empty dict/list.
-/

/-- Labels dict as carried on a GCP resource. -/
abbrev Labels := Dict String

def mergeLabels (currentLabels : Labels) (newLabels : Option Labels)
    (removeLabels : Option (List String)) : Labels :=
  let current1 : Labels :=
    match newLabels with
    | some n => if n.isEmpty then currentLabels else dupdate currentLabels n
    | none => currentLabels
  match removeLabels with
  | some ks =>
      if ks.isEmpty then current1
      else current1.filter (fun p => !ks.contains p.1)
  | none => current1

theorem mergeLabels_lookup_some_remove (currentLabels : Labels) (newLabels : Option Labels)
    (ks : List String) (hks : ks ≠ []) (k : String) :
    dlookup (mergeLabels currentLabels newLabels (some ks)) k
      = if ks.contains k then none
        else dlookup (mergeLabels currentLabels newLabels none) k := by
  have hne : ks.isEmpty = false := by
    cases ks with
    | nil => exact absurd rfl hks
    | cons a l => rfl
  unfold mergeLabels
  simp only [hne, Bool.false_eq_true, if_false]
  exact dlookup_filter_out _ (fun s => ks.contains s) k

/-- C9 counterexample input: `current = {'a': '1'}`, `new = {'a': '2'}`,
`remove = ['b']` (non-empty).  The result maps `a` to the new value `'2'`,
so the key `a` of the current labels, although outside the remove list,
does not keep its value `'1'`. -/
def c9exCurrent : Labels := [("a", "1")]

def c9exNew : Labels := [("a", "2")]

/-- C9: the claim, instantiated at the counterexample input, is false: its
conjunct "keys of current-labels outside remove-labels keep their values"
fails for key `a`, which is overwritten by the new labels. -/
theorem c9_counterexample :
    ¬ (∀ k, k ∈ c9exCurrent.map (·.1) → ¬ ["b"].contains k →
        dlookup (mergeLabels c9exCurrent (some c9exNew) (some ["b"])) k
          = dlookup c9exCurrent k) := by
  intro h
  have := h "a" (by simp [c9exCurrent]) (by simp)
  simp [mergeLabels, dupdate, dlookup, dinsert, hasKey,
    c9exCurrent, c9exNew, List.filter, List.find?] at this

/-- C9 (amended): with a non-empty remove list, (1) no key of the remove
list occurs in the result, even one that also occurs in the new labels;
(2) every key of the new labels outside the remove list appears with its
new value; (3) every key of the current labels outside the remove list
*and not overridden by the new labels* keeps its current value. -/
theorem c9_merge_labels (currentLabels : Labels) (newLabels : Option Labels)
    (ks : List String) (hks : ks ≠ []) :
    (∀ k, ks.contains k →
        dlookup (mergeLabels currentLabels newLabels (some ks)) k = none)
    ∧ (∀ k v n, ¬ ks.contains k → newLabels = some n → dlookup n k = some v →
        dlookup (mergeLabels currentLabels newLabels (some ks)) k = some v)
    ∧ (∀ k v, ¬ ks.contains k →
        (∀ n, newLabels = some n → dlookup n k = none) →
        dlookup currentLabels k = some v →
        dlookup (mergeLabels currentLabels newLabels (some ks)) k = some v) := by
  refine ⟨?_, ?_, ?_⟩
  · intro k hk
    rw [mergeLabels_lookup_some_remove currentLabels newLabels ks hks k, if_pos hk]
  · intro k v n hk hn hv
    rw [mergeLabels_lookup_some_remove currentLabels newLabels ks hks k,
      if_neg (by simpa using hk)]
    subst hn
    unfold mergeLabels
    rcases hni : n.isEmpty with _ | _
    · simp only [hni, Bool.false_eq_true, if_false]
      rw [dlookup_dupdate, hv]
      rfl
    · rcases n with _ | ⟨p, rest⟩
      · simp [dlookup_nil] at hv
      · simp [List.isEmpty] at hni
  · intro k v hk hnone hv
    rw [mergeLabels_lookup_some_remove currentLabels newLabels ks hks k,
      if_neg (by simpa using hk)]
    unfold mergeLabels
    rcases newLabels with _ | n
    · exact hv
    · rcases hni : n.isEmpty with _ | _
      · simp only [hni, Bool.false_eq_true, if_false]
        rw [dlookup_dupdate, hnone n rfl]
        simpa [Option.orElse] using hv
      · simp only [hni, if_true]
        exact hv

/-- C9 witness: the amended theorem applied at
`current = {'x': 'keep', 'z': 'old'}`, `new = {'y': 'add', 'z': 'new'}`,
`remove = ['x0', 'z']`: `z` is removed despite also being added, `y` gets
its new value, and `x` keeps its current value. -/
theorem c9_merge_labels_witness :
    dlookup (mergeLabels [("x", "keep"), ("z", "old")]
        (some [("y", "add"), ("z", "new")]) (some ["x0", "z"])) "z" = none
    ∧ dlookup (mergeLabels [("x", "keep"), ("z", "old")]
        (some [("y", "add"), ("z", "new")]) (some ["x0", "z"])) "y" = some "add"
    ∧ dlookup (mergeLabels [("x", "keep"), ("z", "old")]
        (some [("y", "add"), ("z", "new")]) (some ["x0", "z"])) "x" = some "keep" := by
  obtain ⟨h1, h2, h3⟩ := c9_merge_labels [("x", "keep"), ("z", "old")]
    (some [("y", "add"), ("z", "new")]) ["x0", "z"] (by decide)
  refine ⟨h1 "z" (by decide), h2 "y" "add" [("y", "add"), ("z", "new")] (by decide) rfl (by decide), h3 "x" "keep" (by decide) ?_ (by decide)⟩
  intro n hn
  cases hn
  decide

/-!
### `StackdriverLogFilter.validate`
(src/tools/c7n_gcp/c7n_gcp/filters/log_filter.py, lines 66-78)

```python
schema = type_schema('stackdriver-logs', rinherit=ValueFilter.schema,
                     required=['filter'],
                     filter={'type': 'string'},
                     filter_days={'type': 'number', 'minimum': 0})

def validate(self):
    if self.data.get('filter_days') < 0:
        raise FilterValidationError("Filter '{}': invalid filter_days < 0".format(self.type))
    if not self.data.get('filter'):
        raise FilterValidationError("Filter '{}': filter field must exists".format(self.type))
    super(StackdriverLogFilter, self).validate()
```

`filter_days` is optional in the schema; `self.data.get('filter_days')` is
`None` when absent, and in Python 3 `None < 0` raises `TypeError`.
`if not self.data.get('filter')` is a truthiness test: `None` and the
empty string are falsy.  `super().validate()` is `ValueFilter.validate`
from the c7n core (outside the sampled sources) and is modelled as
succeeding; it can only add further failures, which does not affect the
necessary conditions proved below.
-/

/-- Python exceptions raised by the embedded code. -/
inductive PyExc where
  | typeErr (msg : String)
  | filterValidationError (msg : String)
  deriving DecidableEq, Repr

/-- The type-specific fields of a `stackdriver-logs` filter spec. -/
structure LogFilterData where
  filterDays : Option Rat
  filterStr : Option String
  deriving DecidableEq, Repr

def logFilterValidate (d : LogFilterData) : Except PyExc Unit :=
  match d.filterDays with
  | none =>
      Except.error (PyExc.typeErr
        "unsupported operand type(s) for <: NoneType and int")
  | some fd =>
      if fd < 0 then
        Except.error (PyExc.filterValidationError
          "Filter 'stackdriver-logs': invalid filter_days < 0")
      else
        match d.filterStr with
        | none =>
            Except.error (PyExc.filterValidationError
              "Filter 'stackdriver-logs': filter field must exists")
        | some s =>
            if s = "" then
              Except.error (PyExc.filterValidationError
                "Filter 'stackdriver-logs': filter field must exists")
            else Except.ok ()

/-- C10: a spec omitting `filter_days` makes `validate` raise `TypeError`
(not a policy-validation error and not success), and any spec passing
`validate` supplies a non-negative `filter_days` and a non-empty
`filter`. -/
theorem c10_validate_filter_days (d : LogFilterData) :
    (d.filterDays = none →
      ∃ m, logFilterValidate d = Except.error (PyExc.typeErr m))
    ∧ (logFilterValidate d = Except.ok () →
        ∃ fd, d.filterDays = some fd ∧ 0 ≤ fd
          ∧ ∃ s, d.filterStr = some s ∧ s ≠ "") := by
  constructor
  · intro h
    rw [logFilterValidate, h]
    exact ⟨_, rfl⟩
  · intro h
    rcases hfd : d.filterDays with _ | fd
    · simp only [logFilterValidate, hfd] at h
      exact absurd h (by simp)
    · simp only [logFilterValidate, hfd] at h
      by_cases hneg : fd < 0
      · rw [if_pos hneg] at h
        exact absurd h (by simp)
      · rw [if_neg hneg] at h
        refine ⟨fd, rfl, le_of_not_lt hneg, ?_⟩
        rcases hs : d.filterStr with _ | s
        · simp only [hs] at h
          exact absurd h (by simp)
        · simp only [hs] at h
          by_cases hempty : s = ""
          · rw [if_pos hempty] at h
            exact absurd h (by simp)
          · rw [if_neg hempty] at h
            exact ⟨s, rfl, hempty⟩

/-- C10 witness: a spec with `filter_days` absent raises `TypeError`, and
the completeness direction instantiated at `filter_days = 7`,
`filter = 'resource.type=x'`. -/
theorem c10_validate_filter_days_witness :
    (∃ m, logFilterValidate ⟨none, some "resource.type=x"⟩
        = Except.error (PyExc.typeErr m))
    ∧ ∃ fd, (⟨some 7, some "resource.type=x"⟩ : LogFilterData).filterDays = some fd
        ∧ 0 ≤ fd ∧ ∃ s, (⟨some 7, some "resource.type=x"⟩ : LogFilterData).filterStr = some s ∧ s ≠ "" :=
  ⟨(c10_validate_filter_days ⟨none, some "resource.type=x"⟩).1 rfl,
   (c10_validate_filter_days ⟨some 7, some "resource.type=x"⟩).2 (by rfl)⟩

/-!
### `LabelDelayedAction` (mark-for-op)
(src/tools/c7n_gcp/c7n_gcp/actions/labels.py, lines 153-238)

```python
DEFAULT_TAG = "custodian_status"
default_template = 'resource_policy-{op}-{action_date}'

def __init__(self, data=None, manager=None, log_dir=None):
    ...
    msg_tmpl = self.data.get('msg', self.default_template)
    op = self.data.get('op', 'stop')
    days = self.data.get('days', 0)
    hours = self.data.get('hours', 0)
    action_date = self.generate_timestamp(days, hours)
    self.label = self.data.get('label', DEFAULT_TAG)
    self.msg = msg_tmpl.format(op=op, action_date=action_date)

def generate_timestamp(self, days, hours):
    n = datetime.now(tz=self.tz)
    if days is None or hours is None:
        # maintains default value of days being 4 if nothing is provided
        days = 4
    action_date = (n + timedelta(days=days, hours=hours))
    if hours > 0:
        action_date_string = action_date.strftime('%Y_%m_%d__%H_%M')
    else:
        action_date_string = action_date.strftime('%Y_%m_%d__0_0')
    return action_date_string

def get_labels_to_add(self, resource):
    return {self.label: self.msg}
```

The base time `datetime.now(tz)` is modelled as an integer count of hours
(`now`); `timedelta(days=d, hours=h)` adds `24*d + h` hours.  The
timezone handling (`dateutil.tz`) is external and irrelevant to the
claims.  `strftime` calendar rendering is modelled by `renderActionDate`,
which keeps the information content of the two format strings: the
calendar date collapses to the day index `ediv 24`, and the hour of day
is shown only in the `hours > 0` format (`%H_%M`, minutes always zero at
this granularity); the other format prints the literal `0_0`.
`timedelta(days=4, hours=None)` — reached when `hours is None` — raises
`TypeError` in Python.
-/

/-- The type-specific fields of a `mark-for-op` action spec. -/
structure MarkForOpData where
  label : Option String
  msg : Option String
  days : Option Int
  hours : Option Int
  tz : Option String
  op : Option String
  deriving DecidableEq, Repr

def renderActionDate (dateHours : Int) (hourly : Bool) : String :=
  if hourly then
    toString (dateHours.ediv 24) ++ "__" ++ toString (dateHours.emod 24) ++ "_0"
  else
    toString (dateHours.ediv 24) ++ "__0_0"

/-- `generate_timestamp(days, hours)`: returns the rendered date together
with the underlying timestamp (in hours) it renders. -/
def generate_timestamp (days hours : Option Int) (now : Int) :
    Except PyExc (String × Int) :=
  let days1 := if days.isNone || hours.isNone then some (4 : Int) else days
  match days1, hours with
  | some d, some h =>
      Except.ok (renderActionDate (now + 24 * d + h) (decide (0 < h)), now + 24 * d + h)
  | _, _ =>
      Except.error (PyExc.typeErr "unsupported type for timedelta hours component: NoneType")

/-- `str.format` with the two named fields the delayed-action template uses. -/
def pyFormatTemplate (tmpl opStr dateStr : String) : String :=
  (tmpl.replace "{op}" opStr).replace "{action_date}" dateStr

/-- State established by `LabelDelayedAction.__init__`. -/
structure DelayedActionState where
  label : String
  msg : String
  actionDateHours : Int
  deriving DecidableEq, Repr

def labelDelayedInit (d : MarkForOpData) (now : Int) :
    Except PyExc DelayedActionState :=
  let msgTmpl := d.msg.getD "resource_policy-{op}-{action_date}"
  let opStr := d.op.getD "stop"
  let days := d.days.getD 0
  let hours := d.hours.getD 0
  match generate_timestamp (some days) (some hours) now with
  | Except.error e => Except.error e
  | Except.ok (dateStr, dateHours) =>
      Except.ok
        { label := d.label.getD "custodian_status"
          msg := pyFormatTemplate msgTmpl opStr dateStr
          actionDateHours := dateHours }

/-- `get_labels_to_add`: the annotation stamped on the resource. -/
def delayedActionLabels (st : DelayedActionState) : Labels :=
  [(st.label, st.msg)]

/-- C2: with neither `days` nor `hours` in the spec, `__init__` passes
`data.get('days', 0) = 0` and `data.get('hours', 0) = 0` — never `None` —
so the `days is None or hours is None` branch that would restore the
documented 4-day default is unreachable, and the stamped timestamp equals
the base time (offset 0), not base time + 4 days. -/
theorem c2_default_offset_is_zero (d : MarkForOpData) (now : Int)
    (hd : d.days = none) (hh : d.hours = none) :
    ∃ st, labelDelayedInit d now = Except.ok st
      ∧ st.actionDateHours = now
      ∧ st.actionDateHours ≠ now + 24 * 4 := by
  refine ⟨{ label := d.label.getD "custodian_status"
            msg := pyFormatTemplate (d.msg.getD "resource_policy-{op}-{action_date}")
              (d.op.getD "stop") (renderActionDate now false)
            actionDateHours := now }, ?_, rfl, by show now ≠ now + 24 * 4; omega⟩
  rw [labelDelayedInit, hd, hh]
  show Except.ok _ = _
  have : now + 24 * 0 + 0 = now := by ring
  simp only [generate_timestamp, Option.isNone_some, Bool.or_self, Option.getD_none,
    Option.getD_some, this]
  rfl

/-- C2 witness: the theorem at the spec `{'type': 'mark-for-op', 'op': 'stop'}`
(no `days`, no `hours`) and base time 0. -/
theorem c2_default_offset_is_zero_witness :
    ∃ st, labelDelayedInit ⟨none, none, none, none, none, some "stop"⟩ 0 = Except.ok st
      ∧ st.actionDateHours = 0 ∧ st.actionDateHours ≠ 0 + 24 * 4 :=
  c2_default_offset_is_zero ⟨none, none, none, none, none, some "stop"⟩ 0 rfl rfl

/-!
### `MetricsFilter` (src/tools/c7n_gcp/c7n_gcp/filters/metrics_filter.py)

The `__init__` fields (lines 157-177), the cache key (lines 242-250), the
per-resource fetch with its annotation cache (lines 191-256) and the
comparison (lines 258-265).  Metric values and thresholds (Python floats)
are modelled as `Rat`; `str()` of the timeframe number is modelled by
`Rat`'s `toString`, which, like Python's float formatting, is injective on
values and never produces a comma.
-/

/-- The comparison operators of `scalar_ops` (lines 93-106). -/
inductive ScalarOp where
  | opEq | opNe | opGt | opGe | opLe | opLt
  deriving DecidableEq, Repr

/-- `scalar_ops[s]`: `none` models the `KeyError` on an unknown name. -/
def scalar_ops (s : String) : Option ScalarOp :=
  match s with
  | "eq" | "equal" => some ScalarOp.opEq
  | "ne" | "not-equal" => some ScalarOp.opNe
  | "gt" | "greater-than" => some ScalarOp.opGt
  | "ge" | "gte" => some ScalarOp.opGe
  | "le" | "lte" => some ScalarOp.opLe
  | "lt" | "less-than" => some ScalarOp.opLt
  | _ => none

def applyScalarOp (o : ScalarOp) (a b : Rat) : Bool :=
  match o with
  | ScalarOp.opEq => decide (a = b)
  | ScalarOp.opNe => decide (a ≠ b)
  | ScalarOp.opGt => decide (a > b)
  | ScalarOp.opGe => decide (a ≥ b)
  | ScalarOp.opLe => decide (a ≤ b)
  | ScalarOp.opLt => decide (a < b)

/-- The type-specific fields of a `metric` filter spec. -/
structure MetricsFilterData where
  metric : String
  op : String
  threshold : Rat
  timeframe : Option Rat
  aligner : Option String
  aggregation : Option String
  noDataAction : Option String
  filterStr : Option String
  deriving DecidableEq, Repr

/-- State established by `MetricsFilter.__init__` (lines 157-177). -/
structure MetricsFilter where
  metric : String
  op : ScalarOp
  threshold : Rat
  timeframe : Rat
  aligner : String
  aggregation : String
  filterStr : Option String
  noDataAction : String
  deriving DecidableEq, Repr

/-- `MetricsFilter.__init__`: `none` models the `KeyError` raised by
`self.scalar_ops[self.data.get('op')]` on an unknown operator name. -/
def MetricsFilter.init (d : MetricsFilterData) : Option MetricsFilter :=
  match scalar_ops d.op with
  | none => none
  | some o =>
      some { metric := d.metric
             op := o
             threshold := d.threshold
             timeframe := d.timeframe.getD 24
             aligner := d.aligner.getD "mean"
             aggregation := d.aggregation.getD "mean"
             filterStr := d.filterStr
             noDataAction := d.noDataAction.getD "exclude" }

/-- Python string interpolation of a value that may be `None`. -/
def pyFormatOpt : Option String → String
  | none => "None"
  | some s => s

/-- The cache-key format string of `MetricsFilter._get_metrics_cache_key`
(lines 242-250), as a function of the five interpolated strings. -/
def metricsCacheKeyStr (metric aggregation aligner timeframe filterArg : String) : String :=
  "metric: " ++ metric ++ ", aggregation: " ++ aggregation ++ ", aligner: " ++ aligner
    ++ ", timeframe: " ++ timeframe ++ ", filter: " ++ filterArg

def metricsCacheKey (f : MetricsFilter) : String :=
  metricsCacheKeyStr f.metric f.aggregation f.aligner (toString f.timeframe)
    (pyFormatOpt f.filterStr)

/-- `StackdriverLogFilter._get_metrics_cache_key`
(src/tools/c7n_gcp/c7n_gcp/filters/log_filter.py, lines 144-145): the
constant string `"test"`, independent of the filter's parameters. -/
def stackdriverCacheKey (_d : LogFilterData) : String := "test"

/-- C1 counterexample: two stackdriver-logs filters with semantically
different parameters (different log filter expressions and different
day windows) share the same cache key. -/
theorem c1_counterexample :
    stackdriverCacheKey ⟨some 7, some "jsonPayload.event_subtype:compute.instances.stop"⟩
      = stackdriverCacheKey ⟨some 30, some "jsonPayload.event_subtype:compute.instances.start"⟩
    ∧ (⟨some 7, some "jsonPayload.event_subtype:compute.instances.stop"⟩ : LogFilterData)
      ≠ ⟨some 30, some "jsonPayload.event_subtype:compute.instances.start"⟩ :=
  ⟨rfl, by decide⟩

/-- No comma occurs in the string. -/
def noComma (s : String) : Bool := s.data.all (fun c => c != ',')

theorem noComma_spec {s : String} (h : noComma s = true) :
    ∀ c ∈ s.data, c ≠ ',' := by
  intro c hc
  have := List.all_eq_true.mp h c hc
  simpa using this

/-- Splitting at the first comma is unambiguous when the prefixes are
comma-free. -/
theorem split_at_comma :
    ∀ (l1 l2 r1 r2 : List Char), (∀ c ∈ l1, c ≠ ',') → (∀ c ∈ l2, c ≠ ',') →
      l1 ++ ',' :: r1 = l2 ++ ',' :: r2 → l1 = l2 ∧ r1 = r2 := by
  intro l1
  induction l1 with
  | nil =>
    intro l2 r1 r2 _ h2 heq
    cases l2 with
    | nil => simpa using heq
    | cons b t =>
      exfalso
      have hb : b = ',' := by
        have := congrArg (fun l => l.head?) heq
        simp at this
        exact this.symm
      exact h2 b (by simp) hb
  | cons a t1 ih =>
    intro l2 r1 r2 h1 h2 heq
    cases l2 with
    | nil =>
      exfalso
      have ha : a = ',' := by simpa using congrArg (fun l => l.head?) heq
      exact h1 a (by simp) ha
    | cons b t2 =>
      have hab : a = b := by simpa using congrArg (fun l => l.head?) heq
      have htl : t1 ++ ',' :: r1 = t2 ++ ',' :: r2 := by
        simpa using congrArg (fun l => l.tail) heq
      obtain ⟨he, hr⟩ := ih t2 r1 r2 (fun c hc => h1 c (by simp [hc]))
        (fun c hc => h2 c (by simp [hc])) htl
      exact ⟨by rw [hab, he], hr⟩

/-- C1 (amended): the metrics filter's cache key separates parameters as
far as the format string allows: two metrics filters whose interpolated
parameters (metric, aggregation, aligner, rendered timeframe, rendered
filter) contain no comma — schema-valid aggregation/aligner enum values
and rendered numbers never do — share a cache key only if all five
parameters coincide.  The stackdriver-logs filter's cache key, by
contrast, is the constant `"test"` for every parameter choice, so
semantically different log filters share a cache key. -/
theorem c1_cache_key_separation :
    (∀ m1 a1 al1 tf1 f1 m2 a2 al2 tf2 f2 : String,
      noComma m1 = true → noComma m2 = true → noComma a1 = true → noComma a2 = true →
      noComma al1 = true → noComma al2 = true → noComma tf1 = true → noComma tf2 = true →
      metricsCacheKeyStr m1 a1 al1 tf1 f1 = metricsCacheKeyStr m2 a2 al2 tf2 f2 →
      m1 = m2 ∧ a1 = a2 ∧ al1 = al2 ∧ tf1 = tf2 ∧ f1 = f2)
    ∧ (∀ dl : LogFilterData, stackdriverCacheKey dl = "test") := by
  constructor
  · intro m1 a1 al1 tf1 f1 m2 a2 al2 tf2 f2 hm1 hm2 ha1 ha2 hal1 hal2 htf1 htf2 hkey
    have hd := congrArg String.data hkey
    simp only [metricsCacheKeyStr, String.data_append, List.append_assoc,
      List.cons_append, List.cons.injEq, true_and] at hd
    obtain ⟨hmd, hd1⟩ := split_at_comma _ _ _ _ (noComma_spec hm1) (noComma_spec hm2) hd
    simp only [List.cons_append, List.cons.injEq, true_and] at hd1
    obtain ⟨had, hd2⟩ := split_at_comma _ _ _ _ (noComma_spec ha1) (noComma_spec ha2) hd1
    simp only [List.cons_append, List.cons.injEq, true_and] at hd2
    obtain ⟨hald, hd3⟩ := split_at_comma _ _ _ _ (noComma_spec hal1) (noComma_spec hal2) hd2
    simp only [List.cons_append, List.cons.injEq, true_and] at hd3
    obtain ⟨htfd, hd4⟩ := split_at_comma _ _ _ _ (noComma_spec htf1) (noComma_spec htf2) hd3
    simp only [List.cons_append, List.cons.injEq, true_and] at hd4
    exact ⟨String.ext hmd, String.ext had, String.ext hald, String.ext htfd,
      String.ext hd4⟩
  · intro dl
    rfl

/-- C1 witness: the key-separation direction applied at a concrete
comma-free parameter tuple, and the log-filter key at a concrete spec. -/
theorem c1_cache_key_separation_witness :
    ("cpu_utilization" : String) = "cpu_utilization"
    ∧ ("mean" : String) = "mean"
    ∧ ("max" : String) = "max"
    ∧ ("24" : String) = "24"
    ∧ ("resource.labels.zone=us" : String) = "resource.labels.zone=us" := by
  have h := c1_cache_key_separation.1 "cpu_utilization" "mean" "max" "24"
    "resource.labels.zone=us" "cpu_utilization" "mean" "max" "24"
    "resource.labels.zone=us" (by decide) (by decide) (by decide) (by decide)
    (by decide) (by decide) (by decide) (by decide) rfl
  exact h

/-!
### `MetricsFilter.get_metric_data` / annotation cache / comparison
(src/tools/c7n_gcp/c7n_gcp/filters/metrics_filter.py, lines 191-265)

The Stackdriver response is the fetch oracle: `fetched = none` models a
falsy response, otherwise a list of time series, each a list of point
values (the scalar extracted by
`float(list(points[0]['value'].values())[0])`).  Each embedded call
returns the produced value, the resource as mutated in place, and the
number of remote calls issued (0 or 1).  A cached entry is a two-key
Python dict, hence always truthy, so `if cached_metric_data:` succeeds on
any stored entry.  `resource.get(prefix)` followed by
`if not metrics:` treats an absent annotation dict and an empty one
alike, so both are modelled by the empty list.
-/

structure MetricsData where
  timeSeries : List (List Rat)
  deriving DecidableEq, Repr

/-- The `{'metrics_data': ..., 'value': ...}` dict stored under the cache
key. -/
structure CacheEntry where
  metricsData : Option MetricsData
  value : Option Rat
  deriving DecidableEq, Repr

/-- A GCP resource with its `c7n:metrics` annotation dict. -/
structure GcpResource where
  id : String
  metricsAnn : Dict CacheEntry
  deriving DecidableEq, Repr

def getCachedMetricData (f : MetricsFilter) (r : GcpResource) : Option CacheEntry :=
  if r.metricsAnn.isEmpty then none
  else dlookup r.metricsAnn (metricsCacheKey f)

def writeMetricToResource (f : MetricsFilter) (r : GcpResource)
    (md : Option MetricsData) (v : Option Rat) : GcpResource :=
  { r with metricsAnn := dinsert r.metricsAnn (metricsCacheKey f) ⟨md, v⟩ }

def get_metric_data (f : MetricsFilter) (fetched : Option MetricsData)
    (r : GcpResource) : Except String (Option Rat × GcpResource × Nat) :=
  match getCachedMetricData f r with
  | some cached => Except.ok (cached.value, r, 0)
  | none =>
      match fetched with
      | none => Except.ok (none, writeMetricToResource f r none none, 1)
      | some md =>
          match md.timeSeries with
          | [] => Except.ok (none, writeMetricToResource f r (some md) none, 1)
          | ts0 :: rest =>
              match ts0 with
              | [] => Except.ok (none, writeMetricToResource f r (some md) none, 1)
              | p0 :: ps =>
                  if rest.length > 0 ∨ ps.length > 0 then
                    Except.error "Too much series or points"
                  else
                    Except.ok (some p0, writeMetricToResource f r (some md) (some p0), 1)

def passes_op_filter (f : MetricsFilter) (fetched : Option MetricsData)
    (r : GcpResource) : Except String (Bool × GcpResource × Nat) :=
  match get_metric_data f fetched r with
  | Except.error e => Except.error e
  | Except.ok (none, r', n) => Except.ok (f.noDataAction == "include", r', n)
  | Except.ok (some v, r', n) => Except.ok (applyScalarOp f.op v f.threshold, r', n)

def process_resource (f : MetricsFilter) (fetched : Option MetricsData)
    (r : GcpResource) : Except String (Option GcpResource × Nat) :=
  match passes_op_filter f fetched r with
  | Except.error e => Except.error e
  | Except.ok (b, r', n) => Except.ok (if b then some r' else none, n)

theorem dinsert_isEmpty_false {α : Type} (d : Dict α) (k : String) (v : α) :
    (dinsert d k v).isEmpty = false := by
  unfold dinsert
  by_cases h : hasKey d k
  · simp only [h, if_true]
    cases d with
    | nil => simp [hasKey] at h
    | cons p rest => simp
  · have hF : hasKey d k = false := by simpa using h
    simp only [hF, Bool.false_eq_true, if_false]
    cases d <;> simp

/-- C4: when the metric fetch yields no datapoints, the resource is kept
iff `no_data_action` is `'include'`; with `no_data_action` absent from the
spec it is `'exclude'` and the resource is dropped. -/
theorem c4_no_data_action (d : MetricsFilterData) (f : MetricsFilter)
    (hf : MetricsFilter.init d = some f) (fetched : Option MetricsData)
    (r r' : GcpResource) (n : Nat)
    (hnd : get_metric_data f fetched r = Except.ok (none, r', n)) :
    (process_resource f fetched r
        = Except.ok ((if f.noDataAction == "include" then some r' else none), n))
    ∧ (d.noDataAction = none → f.noDataAction = "exclude"
        ∧ process_resource f fetched r = Except.ok (none, n)) := by
  have hpass : passes_op_filter f fetched r
      = Except.ok (f.noDataAction == "include", r', n) := by
    unfold passes_op_filter
    rw [hnd]
  have hproc : process_resource f fetched r
      = Except.ok ((if f.noDataAction == "include" then some r' else none), n) := by
    unfold process_resource
    rw [hpass]
  refine ⟨hproc, fun hnone => ?_⟩
  have hex : f.noDataAction = "exclude" := by
    unfold MetricsFilter.init at hf
    rcases hop : scalar_ops d.op with _ | o
    · rw [hop] at hf
      exact absurd hf (by simp)
    · rw [hop] at hf
      have := (Option.some_inj.mp hf).symm
      rw [this]
      simp [hnone]
  refine ⟨hex, ?_⟩
  rw [hproc, hex]
  rfl

/-- C4 witness: a spec without `no_data_action`, a resource with an empty
annotation dict and a fetch returning no time series: the resource is
dropped after one remote call. -/
theorem c4_no_data_action_witness :
    process_resource
        { metric := "cpu", op := ScalarOp.opGt, threshold := 1, timeframe := 24,
          aligner := "mean", aggregation := "mean", filterStr := none,
          noDataAction := "exclude" }
        none { id := "i-1", metricsAnn := [] }
      = Except.ok (none, 1) := by
  have h := c4_no_data_action
    { metric := "cpu", op := "gt", threshold := 1, timeframe := none,
      aligner := none, aggregation := none, noDataAction := none,
      filterStr := none }
    { metric := "cpu", op := ScalarOp.opGt, threshold := 1, timeframe := 24,
      aligner := "mean", aggregation := "mean", filterStr := none,
      noDataAction := "exclude" }
    rfl none { id := "i-1", metricsAnn := [] }
    (writeMetricToResource
      { metric := "cpu", op := ScalarOp.opGt, threshold := 1, timeframe := 24,
        aligner := "mean", aggregation := "mean", filterStr := none,
        noDataAction := "exclude" }
      { id := "i-1", metricsAnn := [] } none none)
    1 rfl
  exact (h.2 rfl).2

/-- C5: on a resource whose annotation dict misses the key, the first
evaluation issues exactly one remote call and annotates the resource; a
second evaluation with identical effective parameters (metric,
aggregation, aligner, timeframe, filter — threshold and operator may even
differ) returns the same value from the annotation cache with zero remote
calls, regardless of what a second fetch would have returned. -/
theorem c5_second_evaluation_cached (f1 f2 : MetricsFilter)
    (hmet : f1.metric = f2.metric) (hagg : f1.aggregation = f2.aggregation)
    (hali : f1.aligner = f2.aligner) (htf : f1.timeframe = f2.timeframe)
    (hfil : f1.filterStr = f2.filterStr)
    (fetched1 fetched2 : Option MetricsData) (r r' : GcpResource)
    (v : Option Rat) (n : Nat)
    (hmiss : getCachedMetricData f1 r = none)
    (h1 : get_metric_data f1 fetched1 r = Except.ok (v, r', n)) :
    n = 1 ∧ get_metric_data f2 fetched2 r' = Except.ok (v, r', 0) := by
  have hkey : metricsCacheKey f1 = metricsCacheKey f2 := by
    unfold metricsCacheKey
    rw [hmet, hagg, hali, htf, hfil]
  have hcached : ∀ md w, getCachedMetricData f2 (writeMetricToResource f1 r md w)
      = some ⟨md, w⟩ := by
    intro md w
    unfold getCachedMetricData writeMetricToResource
    rw [dinsert_isEmpty_false]
    simp only [Bool.false_eq_true, if_false, ← hkey]
    exact dlookup_dinsert_self _ _ _
  unfold get_metric_data at h1
  rw [hmiss] at h1
  have hmain : ∃ md w, r' = writeMetricToResource f1 r md w ∧ w = v ∧ n = 1 := by
    rcases fetched1 with _ | md
    · simp only [Except.ok.injEq, Prod.mk.injEq] at h1
      exact ⟨none, none, h1.2.1.symm, h1.1, h1.2.2.symm⟩
    · obtain ⟨ts⟩ := md
      rcases ts with _ | ⟨ts0, rest⟩
      · simp only [Except.ok.injEq, Prod.mk.injEq] at h1
        exact ⟨some ⟨[]⟩, none, h1.2.1.symm, h1.1, h1.2.2.symm⟩
      · rcases ts0 with _ | ⟨p0, ps⟩
        · simp only [Except.ok.injEq, Prod.mk.injEq] at h1
          exact ⟨some ⟨[] :: rest⟩, none, h1.2.1.symm, h1.1, h1.2.2.symm⟩
        · by_cases hbig : rest.length > 0 ∨ ps.length > 0
          · simp only [if_pos hbig] at h1
            exact absurd h1 (by simp)
          · simp only [if_neg hbig, Except.ok.injEq, Prod.mk.injEq] at h1
            exact ⟨some ⟨(p0 :: ps) :: rest⟩, some p0, h1.2.1.symm, h1.1, h1.2.2.symm⟩
  obtain ⟨md, w, hr', hw, hn⟩ := hmain
  refine ⟨hn, ?_⟩
  unfold get_metric_data
  rw [hr', hcached md w, hw]

/-- C5 witness: a resource with no annotations, a first fetch returning a
single series with the single point 5, and a second fetch that would have
returned nothing: the second evaluation still reads 5 from the cache with
zero remote calls. -/
theorem c5_second_evaluation_cached_witness :
    get_metric_data
        { metric := "cpu", op := ScalarOp.opGt, threshold := 1, timeframe := 24,
          aligner := "mean", aggregation := "mean", filterStr := none,
          noDataAction := "exclude" }
        none
        (writeMetricToResource
          { metric := "cpu", op := ScalarOp.opGt, threshold := 1, timeframe := 24,
            aligner := "mean", aggregation := "mean", filterStr := none,
            noDataAction := "exclude" }
          { id := "i-1", metricsAnn := [] } (some ⟨[[5]]⟩) (some 5))
      = Except.ok (some 5,
          writeMetricToResource
            { metric := "cpu", op := ScalarOp.opGt, threshold := 1, timeframe := 24,
              aligner := "mean", aggregation := "mean", filterStr := none,
              noDataAction := "exclude" }
            { id := "i-1", metricsAnn := [] } (some ⟨[[5]]⟩) (some 5), 0) :=
  (c5_second_evaluation_cached
    { metric := "cpu", op := ScalarOp.opGt, threshold := 1, timeframe := 24,
      aligner := "mean", aggregation := "mean", filterStr := none,
      noDataAction := "exclude" }
    { metric := "cpu", op := ScalarOp.opGt, threshold := 1, timeframe := 24,
      aligner := "mean", aggregation := "mean", filterStr := none,
      noDataAction := "exclude" }
    rfl rfl rfl rfl rfl (some ⟨[[5]]⟩) none
    { id := "i-1", metricsAnn := [] } _ (some 5) 1 rfl rfl).2

/-!
### `StackdriverLogFilter.process_resources` retry policy
(src/tools/c7n_gcp/c7n_gcp/filters/log_filter.py, lines 99-106)

```python
def is_retryable_exception(e):
    return isinstance(e, TooManyRequests)

@retry(retry_on_exception=is_retryable_exception,
       wait_exponential_multiplier=1000,
       wait_exponential_max=10000,
       stop_max_attempt_number=10)
def process_resources(self, resource_set, client, time_from):
    ...
```

The `retrying` decorator (external collaborator) implements the policy
the spec describes: call the body; on an exception accepted by
`retry_on_exception`, sleep an exponentially growing wait capped at
`wait_exponential_max` ms and call again, up to `stop_max_attempt_number`
total attempts, re-raising the exception of the final attempt; a rejected
exception is re-raised at once.  The body's attempt outcomes (the remote
`list_entries` call for one resource chunk) are the oracle `calls`;
`retryGo` returns the final outcome with the number of attempts used.
-/

/-- Provider errors: the rate-limit class (`TooManyRequests`, HTTP 429)
against everything else. -/
inductive GcpError where
  | tooManyRequests
  | otherError (name : String)
  deriving DecidableEq, Repr

def is_retryable_exception : GcpError → Bool
  | GcpError.tooManyRequests => true
  | GcpError.otherError _ => false

/-- Wait before retry number `k+1`: `min(multiplier * 2^k, max)` ms with
`wait_exponential_multiplier=1000` and `wait_exponential_max=10000`. -/
def retryWaitMs (k : Nat) : Nat := min (1000 * 2 ^ k) 10000

def retryGo {α : Type} (retryable : GcpError → Bool)
    (calls : Nat → Except GcpError α) : Nat → Nat → Except GcpError α × Nat
  | 0, i =>
      (match calls i with
       | Except.ok a => (Except.ok a, i + 1)
       | Except.error e => (Except.error e, i + 1))
  | rem + 1, i =>
      match calls i with
      | Except.ok a => (Except.ok a, i + 1)
      | Except.error e =>
          if retryable e then retryGo retryable calls rem (i + 1)
          else (Except.error e, i + 1)

/-- The decorated `process_resources`: at most `stop_max_attempt_number = 10`
attempts, i.e. the first attempt plus up to 9 retries. -/
def retried_process_resources {α : Type} (calls : Nat → Except GcpError α) :
    Except GcpError α × Nat :=
  retryGo is_retryable_exception calls 9 0

theorem retryGo_all_ratelimited {α : Type} (calls : Nat → Except GcpError α)
    (h : ∀ j, calls j = Except.error GcpError.tooManyRequests) :
    ∀ rem i, retryGo is_retryable_exception calls rem i
      = (Except.error GcpError.tooManyRequests, i + rem + 1) := by
  intro rem
  induction rem with
  | zero => intro i; simp [retryGo, h i]
  | succ rem ih =>
    intro i
    simp only [retryGo, h i, is_retryable_exception, if_true]
    rw [ih (i + 1)]
    congr 1
    omega

theorem retryGo_eventually_ok {α : Type} (calls : Nat → Except GcpError α) :
    ∀ (N : Nat) (rem i : Nat) (a : α), N ≤ rem →
      (∀ j, j < N → calls (i + j) = Except.error GcpError.tooManyRequests) →
      calls (i + N) = Except.ok a →
      retryGo is_retryable_exception calls rem i = (Except.ok a, i + N + 1) := by
  intro N
  induction N with
  | zero =>
    intro rem i a _ _ hok
    rw [Nat.add_zero] at hok
    cases rem <;> simp [retryGo, hok]
  | succ N ih =>
    intro rem i a hle hfail hok
    rcases rem with _ | rem'
    · omega
    · have h0 : calls i = Except.error GcpError.tooManyRequests := by
        have := hfail 0 (by omega)
        rwa [Nat.add_zero] at this
      simp only [retryGo, h0, is_retryable_exception, if_true]
      have hok' : calls (i + 1 + N) = Except.ok a := by
        rw [show i + 1 + N = i + (N + 1) by omega]
        exact hok
      have hfail' : ∀ j, j < N → calls (i + 1 + j) = Except.error GcpError.tooManyRequests := by
        intro j hj
        rw [show i + 1 + j = i + (j + 1) by omega]
        exact hfail (j + 1) (by omega)
      rw [ih rem' (i + 1) a (by omega) hfail' hok']
      congr 1
      omega

/-- C3: (1) a chunk whose fetch raises `TooManyRequests` N times and then
succeeds, N+1 within the 10-attempt cap, yields the successful result
with no error surfaced; (2) the retry wait is exponential with a 10s cap;
(3) a fetch rate-limited on all 10 attempts surfaces the rate-limit error
as fatal for that chunk; (4) a non-rate-limit provider error propagates
after a single attempt, unretried. -/
theorem c3_retry_policy :
    (∀ (α : Type) (calls : Nat → Except GcpError α) (N : Nat) (a : α),
      N + 1 ≤ 10 →
      (∀ j, j < N → calls j = Except.error GcpError.tooManyRequests) →
      calls N = Except.ok a →
      retried_process_resources calls = (Except.ok a, N + 1))
    ∧ (∀ k, retryWaitMs k ≤ 10000)
    ∧ (∀ k k', k ≤ k' → retryWaitMs k ≤ retryWaitMs k')
    ∧ (∀ (α : Type) (calls : Nat → Except GcpError α),
      (∀ j, calls j = Except.error GcpError.tooManyRequests) →
      retried_process_resources calls = (Except.error GcpError.tooManyRequests, 10))
    ∧ (∀ (α : Type) (calls : Nat → Except GcpError α) (s : String),
      calls 0 = Except.error (GcpError.otherError s) →
      retried_process_resources calls = (Except.error (GcpError.otherError s), 1)) := by
  refine ⟨?_, ?_, ?_, ?_, ?_⟩
  · intro α calls N a hcap hfail hok
    unfold retried_process_resources
    have := retryGo_eventually_ok calls N 9 0 a (by omega)
      (fun j hj => by simpa using hfail j hj) (by simpa using hok)
    simpa using this
  · intro k
    exact min_le_right _ _
  · intro k k' hk
    exact min_le_min (Nat.mul_le_mul_left _ (Nat.pow_le_pow_right (by norm_num) hk)) le_rfl
  · intro α calls h
    unfold retried_process_resources
    rw [retryGo_all_ratelimited calls h 9 0]
  · intro α calls s h
    unfold retried_process_resources
    simp [retryGo, h, is_retryable_exception]

/-- C3 witness: three rate-limit failures then success yields the result
on attempt 4; all-fail surfaces the rate-limit error after 10 attempts; a
permission error propagates after attempt 1; the first wait is within the
cap. -/
theorem c3_retry_policy_witness :
    retried_process_resources
        (fun i => if i < 3 then Except.error GcpError.tooManyRequests
                  else Except.ok (42 : Nat))
      = (Except.ok 42, 4)
    ∧ retried_process_resources
        (fun _ => (Except.error GcpError.tooManyRequests : Except GcpError Nat))
      = (Except.error GcpError.tooManyRequests, 10)
    ∧ retried_process_resources
        (fun _ => (Except.error (GcpError.otherError "PermissionDenied")
          : Except GcpError Nat))
      = (Except.error (GcpError.otherError "PermissionDenied"), 1)
    ∧ retryWaitMs 6 ≤ 10000 :=
  ⟨c3_retry_policy.1 Nat _ 3 42 (by omega)
      (fun j hj => by interval_cases j <;> rfl) rfl,
   c3_retry_policy.2.2.2.1 Nat _ (fun _ => rfl),
   c3_retry_policy.2.2.2.2 Nat _ "PermissionDenied" rfl,
   c3_retry_policy.2.1 6⟩

/-!
### `Action.filter_resources` (c7n core)

Modelled from the spec: the c7n core module defining
`Action.filter_resources` is not among the sampled sources — only its
test (src/tests/test_actions.py, lines 25-36) is.  Per spec §4.2/§4.4/§8
the pre-pass resolves `key` per resource as a dotted path into the nested
resource mapping, keeps — in their original order — only the resources
whose resolved value is in `allowed_values`, and when the pass reduces
the resource list it logs exactly one line in the stable diagnostic
format; the test's expected line
(`set-x implicitly filtered 2 of 3 resources key:state.status on running`,
for 3 resources of which 2 survive) fixes the first number of that line
as the surviving count.
-/

/-- Nested resource data: string leaves and string-keyed mappings. -/
inductive RVal where
  | str (s : String)
  | obj (fields : List (String × RVal))

def splitDots (cs : List Char) : List (List Char) :=
  match cs with
  | [] => [[]]
  | c :: rest =>
      if c = '.' then [] :: splitDots rest
      else
        match splitDots rest with
        | [] => [[c]]
        | seg :: segs => (c :: seg) :: segs

/-- Dotted-path key segmentation (`'state.status'` → `['state', 'status']`). -/
def splitKey (key : String) : List String :=
  (splitDots key.data).map (fun seg => String.mk seg)

def getField : RVal → String → Option RVal
  | RVal.str _, _ => none
  | RVal.obj fields, k => dlookup fields k

def resolvePath : RVal → List String → Option RVal
  | v, [] => some v
  | v, k :: ks =>
      match getField v k with
      | none => none
      | some v' => resolvePath v' ks

def resolveKey (r : RVal) (key : String) : Option RVal :=
  resolvePath r (splitKey key)

/-- The scalar value a resource contributes to the membership test. -/
def valueOf : Option RVal → Option String
  | some (RVal.str s) => some s
  | _ => none

/-- The membership test of the pre-pass: the value resolved at `key` is
a member of `allowed`. -/
def keepsResource (key : String) (allowed : List String) (r : RVal) : Bool :=
  match valueOf (resolveKey r key) with
  | some s => allowed.contains s
  | none => false

/-- Modelled from the spec: `Action.filter_resources(resources, key,
allowed_values)` with the action's `type` interpolated into the
diagnostic line; returns the surviving resources and the emitted log
lines. -/
def filter_resources (typeName : String) (resources : List RVal) (key : String)
    (allowed : List String) : List RVal × List String :=
  let results := resources.filter (fun r =>
    match valueOf (resolveKey r key) with
    | some s => allowed.contains s
    | none => false)
  let logLines :=
    if results.length ≠ resources.length then
      [typeName ++ " implicitly filtered " ++ toString results.length ++ " of "
        ++ toString resources.length ++ " resources key:" ++ key ++ " on "
        ++ String.intercalate "," allowed]
    else []
  (results, logLines)

/-- The three resources of the test example. -/
def c6exX : RVal := RVal.obj [("app", RVal.str "X"), ("state", RVal.obj [("status", RVal.str "running")])]

def c6exY : RVal := RVal.obj [("app", RVal.str "Y"), ("state", RVal.obj [("status", RVal.str "stopped")])]

def c6exZ : RVal := RVal.obj [("app", RVal.str "Z"), ("state", RVal.obj [("status", RVal.str "running")])]

/-- C6 counterexample: at the three-resource example exactly one resource
is dropped, yet the emitted line reads `filtered 2 of 3` — the first
number of the line is the surviving count, not the dropped count the
claim's general format `{dropped} of {total}` prescribes. -/
theorem c6_counterexample :
    (filter_resources "set-x" [c6exX, c6exY, c6exZ] "state.status" ["running"]).2
      = ["set-x implicitly filtered 2 of 3 resources key:state.status on running"]
    ∧ [c6exX, c6exY, c6exZ].length
        - (filter_resources "set-x" [c6exX, c6exY, c6exZ] "state.status" ["running"]).1.length = 1
    ∧ (filter_resources "set-x" [c6exX, c6exY, c6exZ] "state.status" ["running"]).2
      ≠ ["set-x implicitly filtered 1 of 3 resources key:state.status on running"] := by
  refine ⟨rfl, rfl, by decide⟩

/-- C6 (amended): `filter_resources` returns exactly the resources whose
value at `key` is in `allowed` — it equals the input filtered by the
membership test (so it keeps every matching resource, each with its
multiplicity), in their original relative order (a sublist of the
input), a resource is a member of the result iff it is a matching member
of the input — and whenever it drops any resource it emits exactly one
log line `'<type> implicitly filtered {kept} of {total} resources
key:{key} on {value}'` whose first number is the surviving count; at the
test example the survivors are the X and Z resources and the line is
exactly
`'set-x implicitly filtered 2 of 3 resources key:state.status on running'`. -/
theorem c6_filter_resources :
    (∀ (typeName : String) (resources : List RVal) (key : String) (allowed : List String),
      (filter_resources typeName resources key allowed).1
          = resources.filter (keepsResource key allowed)
      ∧ (filter_resources typeName resources key allowed).1.Sublist resources
      ∧ (∀ r, r ∈ (filter_resources typeName resources key allowed).1 ↔
          r ∈ resources
            ∧ ∃ s, valueOf (resolveKey r key) = some s ∧ allowed.contains s = true)
      ∧ ((filter_resources typeName resources key allowed).1.length ≠ resources.length →
          (filter_resources typeName resources key allowed).2
            = [typeName ++ " implicitly filtered "
                ++ toString (filter_resources typeName resources key allowed).1.length
                ++ " of " ++ toString resources.length ++ " resources key:" ++ key
                ++ " on " ++ String.intercalate "," allowed])
      ∧ ((filter_resources typeName resources key allowed).1.length = resources.length →
          (filter_resources typeName resources key allowed).2 = []))
    ∧ (filter_resources "set-x" [c6exX, c6exY, c6exZ] "state.status" ["running"]).1
        = [c6exX, c6exZ]
    ∧ (filter_resources "set-x" [c6exX, c6exY, c6exZ] "state.status" ["running"]).2
        = ["set-x implicitly filtered 2 of 3 resources key:state.status on running"] := by
  refine ⟨?_, rfl, rfl⟩
  intro typeName resources key allowed
  refine ⟨rfl, List.filter_sublist _, ?_, ?_, ?_⟩
  · intro r
    constructor
    · intro hr
      have hmem := List.mem_filter.mp hr
      refine ⟨hmem.1, ?_⟩
      rcases hval : valueOf (resolveKey r key) with _ | s
      · rw [hval] at hmem
        exact absurd hmem.2 (by simp)
      · rw [hval] at hmem
        exact ⟨s, rfl, hmem.2⟩
    · rintro ⟨hin, s, hs, hcont⟩
      have hpred : (match valueOf (resolveKey r key) with
          | some s => allowed.contains s
          | none => false) = true := by
        simp only [hs]
        exact hcont
      exact List.mem_filter.mpr ⟨hin, hpred⟩
  · intro hne
    simp only [filter_resources] at hne ⊢
    rw [if_pos hne]
  · intro heq
    simp only [filter_resources] at heq ⊢
    rw [if_neg (by simpa using heq)]

/-- C6 witness: the general part of the amended theorem applied at the
test example — the emitted log line (via the drop hypothesis) and the
completeness direction of the membership characterisation at the X
resource. -/
theorem c6_filter_resources_witness :
    (filter_resources "set-x" [c6exX, c6exY, c6exZ] "state.status" ["running"]).2
      = ["set-x implicitly filtered "
          ++ toString (filter_resources "set-x" [c6exX, c6exY, c6exZ] "state.status" ["running"]).1.length
          ++ " of " ++ toString [c6exX, c6exY, c6exZ].length
          ++ " resources key:" ++ "state.status" ++ " on "
          ++ String.intercalate "," ["running"]]
    ∧ c6exX ∈ (filter_resources "set-x" [c6exX, c6exY, c6exZ] "state.status" ["running"]).1 :=
  ⟨((c6_filter_resources.1 "set-x" [c6exX, c6exY, c6exZ] "state.status"
      ["running"]).2.2.2.1 (by decide)),
   (((c6_filter_resources.1 "set-x" [c6exX, c6exY, c6exZ] "state.status"
      ["running"]).2.2.1 c6exX).mpr
        ⟨by simp, "running", rfl, by decide⟩)⟩

/-!
### `Action._run_api` (c7n core)

Modelled from the spec: the c7n core module defining `Action._run_api` is
not among the sampled sources — only its tests
(src/tests/test_actions.py, lines 38-52) are.  Per spec §4.4/§6/§8 the
wrapper invokes the provider call; a raised error classified benign — the
dry-run sentinel the tests pin down: code `DryRunOperation`, HTTP status
412 and a message containing "would have succeeded" — is logged and
swallowed, the wrapper returning normally with no result; any other
raised error is re-raised unchanged.
-/

def startsWithL : List Char → List Char → Bool
  | _, [] => true
  | [], _ :: _ => false
  | a :: s', b :: p' => (a == b) && startsWithL s' p'

def containsSubL (p : List Char) : List Char → Bool
  | [] => startsWithL [] p
  | c :: s' => startsWithL (c :: s') p || containsSubL p s'

/-- Python `pat in s` on strings. -/
def pyIn (pat s : String) : Bool := containsSubL pat.data s.data

/-- The provider error shape consumed from the collaborator: a code, a
message and an HTTP status. -/
structure ClientError where
  code : String
  message : String
  httpStatusCode : Nat
  deriving DecidableEq, Repr

/-- The benign/dry-run classification of a provider error. -/
def isBenignClientError (e : ClientError) : Bool :=
  e.code == "DryRunOperation" && e.httpStatusCode == 412
    && pyIn "would have succeeded" e.message

/-- Modelled from the spec: `Action._run_api(call)`; `ok none` is a
normal return with no result (the benign error was logged and
swallowed). -/
def run_api {α : Type} (call : Unit → Except ClientError α) :
    Except ClientError (Option α) :=
  match call () with
  | Except.ok a => Except.ok (some a)
  | Except.error e =>
      if isBenignClientError e then Except.ok none else Except.error e

/-- C7: a benign classified error (the dry-run sentinel) is swallowed and
`_run_api` returns normally with no result; an error with any other
classification is re-raised unchanged; in particular the two errors of
the tests — `(DryRunOperation, "would have succeeded", 412)` swallowed,
`(Foo, Bar)` re-raised. -/
theorem c7_run_api :
    (∀ (α : Type) (call : Unit → Except ClientError α) (e : ClientError),
      call () = Except.error e →
      (isBenignClientError e = true → run_api call = Except.ok none)
      ∧ (isBenignClientError e = false → run_api call = Except.error e))
    ∧ run_api (fun _ => (Except.error ⟨"DryRunOperation", "would have succeeded", 412⟩
        : Except ClientError Unit)) = Except.ok none
    ∧ run_api (fun _ => (Except.error ⟨"Foo", "Bar", 400⟩ : Except ClientError Unit))
        = Except.error ⟨"Foo", "Bar", 400⟩ := by
  refine ⟨?_, by rfl, by rfl⟩
  intro α call e hcall
  constructor
  · intro hben
    unfold run_api
    rw [hcall]
    simp [hben]
  · intro hben
    unfold run_api
    rw [hcall]
    simp [hben]

/-- C7 witness: the classification branches applied to the two concrete
errors of the tests. -/
theorem c7_run_api_witness :
    run_api (fun _ => (Except.error ⟨"DryRunOperation", "Request would have succeeded, but DryRun flag is set", 412⟩
      : Except ClientError Nat)) = Except.ok none
    ∧ run_api (fun _ => (Except.error ⟨"Foo", "Bar", 412⟩ : Except ClientError Nat))
      = Except.error ⟨"Foo", "Bar", 412⟩ :=
  ⟨((c7_run_api.1 Nat _ ⟨"DryRunOperation", "Request would have succeeded, but DryRun flag is set", 412⟩ rfl).1 (by decide)),
   ((c7_run_api.1 Nat _ ⟨"Foo", "Bar", 412⟩ rfl).2 (by decide))⟩

/-!
### `ActionRegistry.factory` (c7n core)

Modelled from the spec: the c7n core module defining
`ActionRegistry.factory` is not among the sampled sources — only its
tests (src/tests/test_actions.py, lines 55-64) are.  Per spec §4.5/§8 the
factory accepts either a bare type-name string or a spec record whose
`type` field names the implementation; a missing `type` field or an
unregistered name fails with a policy-validation error carrying the
offending name, never with a raw lookup/attribute failure.
-/

inductive PolicyError where
  | validationError (msg : String)
  | rawLookupError (key : String)
  deriving DecidableEq, Repr

/-- A factory input: a bare name or a spec record (whose `type` field may
be missing — the empty spec `{}` is `record none`). -/
inductive ActionSpecInput where
  | named (s : String)
  | record (typeField : Option String)
  deriving DecidableEq, Repr

/-- Modelled from the spec: `ActionRegistry.factory(data, manager)`;
returns the registered implementation together with the resolved type
name. -/
def registryFactory {α : Type} (registry : Dict α) (spec : ActionSpecInput) :
    Except PolicyError (α × String) :=
  let typeName? :=
    match spec with
    | ActionSpecInput.record t => t
    | ActionSpecInput.named s => some s
  match typeName? with
  | none => Except.error (PolicyError.validationError "Invalid action type found in spec")
  | some n =>
      match dlookup registry n with
      | none => Except.error (PolicyError.validationError ("Invalid action type " ++ n))
      | some impl => Except.ok (impl, n)

/-- C8: the factory fails with a policy-validation error on the empty
spec and on any unregistered type name, and every factory failure is a
validation error — never a raw lookup error. -/
theorem c8_registry_factory :
    (∀ (α : Type) (registry : Dict α),
      ∃ m, registryFactory registry (ActionSpecInput.record none)
        = Except.error (PolicyError.validationError m))
    ∧ (∀ (α : Type) (registry : Dict α) (n : String), dlookup registry n = none →
      ∃ m, registryFactory registry (ActionSpecInput.named n)
        = Except.error (PolicyError.validationError m))
    ∧ (∀ (α : Type) (registry : Dict α) (spec : ActionSpecInput) (e : PolicyError),
      registryFactory registry spec = Except.error e →
      ∃ m, e = PolicyError.validationError m) := by
  refine ⟨?_, ?_, ?_⟩
  · intro α registry
    exact ⟨_, rfl⟩
  · intro α registry n hn
    refine ⟨"Invalid action type " ++ n, ?_⟩
    unfold registryFactory
    simp only [hn]
  · intro α registry spec e he
    unfold registryFactory at he
    rcases spec with s | t
    · rcases hl : dlookup registry s with _ | impl
      · simp only [hl] at he
        exact ⟨_, (Except.error.inj he).symm⟩
      · simp only [hl] at he
        exact absurd he (by simp)
    · rcases t with _ | n
      · exact ⟨_, (Except.error.inj he).symm⟩
      · rcases hl : dlookup registry n with _ | impl
        · simp only [hl] at he
          exact ⟨_, (Except.error.inj he).symm⟩
        · simp only [hl] at he
          exact absurd he (by simp)

/-- C8 witness: the empty spec and the unregistered name `'foo'` against
an empty registry. -/
theorem c8_registry_factory_witness :
    (∃ m, registryFactory ([] : Dict Unit) (ActionSpecInput.record none)
      = Except.error (PolicyError.validationError m))
    ∧ ∃ m, registryFactory ([] : Dict Unit) (ActionSpecInput.named "foo")
      = Except.error (PolicyError.validationError m) :=
  ⟨c8_registry_factory.1 Unit [], c8_registry_factory.2.1 Unit [] "foo" rfl⟩

end Custodian
